import Mathlib

/-!
Shallow embedding of `packages/cli/src/ui/components/BackgroundShellDisplay.tsx`.

The component displays background shell sessions, routes key events either to
a picker overlay or to the active session's pseudo-terminal, keeps the pty
geometry in sync with the viewport, and lays session tab labels out into a
bounded width.  Effects are modelled with explicit React semantics: an effect
with an empty dependency list runs once, on the first render; an effect with
dependencies runs on the first render and on every later render whose
dependency tuple differs from the previous render's.  External calls and
state-setter invocations are reified as a `Call` type, and each handler or
effect body is a pure function returning the list of calls it issues, in
order.
-/

/-- Status of a background shell: the component distinguishes running from
exited (`shell.status === 'exited'`). -/
inductive ShellStatus
  | running
  | exited
deriving DecidableEq, BEq

/-- Modelled from the spec: the Session record (identifier, command string,
status, exit code, output buffer).  Its declaration (`BackgroundShell` in
`shellCommandProcessor.ts`) is outside this tree; the structured cell-grid
output variant is represented by its text content, which no claim inspects. -/
structure BackgroundShell where
  pid : Nat
  command : String
  status : ShellStatus
  exitCode : Option Int
  output : String
deriving DecidableEq

/-- The session registry `shells : Map<number, BackgroundShell>`: an
insertion-ordered association list from pid to session. -/
abbrev ShellMap := List (Nat × BackgroundShell)

/-- JS `Map.prototype.get`: the value at the first matching key. -/
def mapGet : ShellMap → Nat → Option BackgroundShell
  | [], _ => none
  | (k, v) :: rest, key => if k = key then some v else mapGet rest key

/-- JS `Map.prototype.has`. -/
def mapHas (m : ShellMap) (key : Nat) : Bool :=
  (mapGet m key).isSome

/-- JS `Array.prototype.indexOf` on the pid array, with `none` standing for
the sentinel -1. -/
def indexOfJS (pid : Nat) : List Nat → Option Nat
  | [] => none
  | x :: rest => if x = pid then some 0 else (indexOfJS pid rest).map (· + 1)

/-- The props of `BackgroundShellDisplay`. -/
structure Props where
  shells : ShellMap
  activePid : Nat
  width : Int
  height : Int
  isFocused : Bool
  isListOpenProp : Bool
deriving DecidableEq

/-- `const CONTENT_PADDING_X = 1`. -/
def CONTENT_PADDING_X : Int := 1

/-- `const RIGHT_TEXT = 'Ctrl+B Hide | Ctrl+K Kill'`. -/
def RIGHT_TEXT : String := "Ctrl+B Hide | Ctrl+K Kill"

/-- `const TAB_DISPLAY_HORIZONTAL_PADDING = 4` (2 for borders, 2 for padding). -/
def TAB_DISPLAY_HORIZONTAL_PADDING : Int := 4

/-- `const pidTextEstimate = 25` inside renderTabs. -/
def pidTextEstimate : Int := 25

/-- External calls and state-setter invocations the component can issue. -/
inductive Call
  | writeToPty (pid : Nat) (data : String)
  | resizePty (pid : Nat) (cols rows : Int)
  | setActiveBackgroundShellPid (pid : Nat)
  | setIsBackgroundShellListOpen (b : Bool)
  | dismissBackgroundShell (pid : Nat)
  | setListSelectionIndex (i : Nat)
deriving DecidableEq

/-- Body of the resize effect (source lines 51-61): return early unless the
active pid is in the registry, then resize the active pty to
`max(1, width - TAB_DISPLAY_HORIZONTAL_PADDING / 2 - CONTENT_PADDING_X * 2)`
columns and `max(1, height - 3)` rows. -/
def resizeEffect (p : Props) : List Call :=
  if mapHas p.shells p.activePid then
    [Call.resizePty p.activePid
      (max 1 (p.width - TAB_DISPLAY_HORIZONTAL_PADDING / 2 - CONTENT_PADDING_X * 2))
      (max 1 (p.height - 3))]
  else []

/-- Dependency tuple of the resize effect: `[activePid, width, height, shells]`. -/
def resizeDeps (p : Props) : Nat × Int × Int × ShellMap :=
  (p.activePid, p.width, p.height, p.shells)

/-- Calls issued by the resize effect over the renders after the first: it
fires whenever its dependency tuple differs from the previous render's. -/
def resizeCallsFrom : Props → List Props → List Call
  | _, [] => []
  | prev, p :: rest =>
      (if resizeDeps p = resizeDeps prev then [] else resizeEffect p) ++ resizeCallsFrom p rest

/-- Calls issued by the resize effect over a whole render sequence; the
effect always fires on the first render. -/
def resizeCalls : List Props → List Call
  | [] => []
  | p :: rest => resizeEffect p ++ resizeCallsFrom p rest

/-- Body of the list-sync effect (source lines 70-78): while the list is open
and the active shell exists, look the active shell's pid up in the pid array
and, only when found, overwrite the selection index with its position. -/
def listSyncEffect (p : Props) (listSelectionIndex : Nat) : Nat :=
  if p.isListOpenProp then
    match mapGet p.shells p.activePid with
    | some activeShell =>
        match indexOfJS activeShell.pid (p.shells.map Prod.fst) with
        | some index => index
        | none => listSelectionIndex
    | none => listSelectionIndex
  else listSelectionIndex

/-- Dependency tuple of the list-sync effect:
`[isListOpenProp, activeShell, shells]`. -/
def listSyncDeps (p : Props) : Bool × Option BackgroundShell × ShellMap :=
  (p.isListOpenProp, mapGet p.shells p.activePid, p.shells)

/-- The selection index produced by running the list-sync effect over a
render sequence, starting from the previous render's dependency tuple (none
before the first render) and an initial index. -/
def runListSync : Option (Bool × Option BackgroundShell × ShellMap) → List Props → Nat → Nat
  | _, [], idx => idx
  | prev, p :: rest, idx =>
      runListSync (some (listSyncDeps p)) rest
        (if prev = some (listSyncDeps p) then idx else listSyncEffect p idx)

/-- Body of the mount effect (source lines 81-88): close the list when
exactly one shell exists, open it when more than one exists. -/
def mountEffect (shells : ShellMap) : List Call :=
  if shells.length = 1 then [Call.setIsBackgroundShellListOpen false]
  else if 1 < shells.length then [Call.setIsBackgroundShellListOpen true]
  else []

/-- Calls issued by the mount effect over a render sequence: its dependency
list is empty (`[]`, with an eslint-disable), so it runs only on the first
render. -/
def mountCalls : List Props → List Call
  | [] => []
  | p :: _ => mountEffect p.shells

/-- A decoded key event: symbolic name, control-modifier flag, and the raw
input sequence (empty when the event carries none, matching JS falsiness). -/
structure Key where
  name : String
  ctrl : Bool
  sequence : String
deriving DecidableEq

/-- Modelled from the spec: `keyMatchers[Command.TOGGLE_BACKGROUND_SHELL]`
lives in `keyMatchers.ts`, which is not part of this tree; the component's
header text announces the toggle as Ctrl+B ("Ctrl+B Hide"). -/
def keyMatcherToggleBackgroundShell (k : Key) : Bool :=
  k.ctrl && k.name == "b"

/-- The useKeypress handler body (source lines 91-156).  The returned list
holds the external calls and state-setter invocations issued for one key
event, in order.  The up-navigation `(prev - 1 + len) % len` over JS numbers
is embedded as `(prev + len - 1) % len` over Nat; the two agree whenever
`len` is at least 1, which holds whenever the active shell was found. -/
def handleKeypress (p : Props) (listSelectionIndex : Nat) (key : Key) : List Call :=
  match mapGet p.shells p.activePid with
  | none => []
  | some activeShell =>
    if p.isListOpenProp then
      let shellPids := p.shells.map Prod.fst
      if key.name == "up" then
        [Call.setListSelectionIndex
          ((listSelectionIndex + shellPids.length - 1) % shellPids.length)]
      else if key.name == "down" then
        [Call.setListSelectionIndex ((listSelectionIndex + 1) % shellPids.length)]
      else if key.name == "return" || key.name == "enter" then
        (match shellPids.get? listSelectionIndex with
          | some selectedPid =>
              if selectedPid ≠ 0 then [Call.setActiveBackgroundShellPid selectedPid] else []
          | none => []) ++ [Call.setIsBackgroundShellListOpen false]
      else if key.name == "escape" then
        [Call.setIsBackgroundShellListOpen false]
      else if key.ctrl && key.name == "o" then
        (match shellPids.get? listSelectionIndex with
          | some selectedPid =>
              if selectedPid ≠ 0 then [Call.setActiveBackgroundShellPid selectedPid] else []
          | none => []) ++ [Call.setIsBackgroundShellListOpen false]
      else []
    else
      if keyMatcherToggleBackgroundShell key then []
      else if key.ctrl && key.name == "k" then
        [Call.dismissBackgroundShell activeShell.pid]
      else if key.ctrl && key.name == "o" then
        [Call.setIsBackgroundShellListOpen true]
      else if key.name == "return" then
        [Call.writeToPty activeShell.pid "\r"]
      else if key.name == "backspace" then
        [Call.writeToPty activeShell.pid "\x08"]
      else if key.sequence ≠ "" then
        [Call.writeToPty activeShell.pid key.sequence]
      else []

/-- The useKeypress subscription (source line 157): the handler only receives
events while `isActive`, with `isActive = isFocused && !!activeShell`. -/
def keypressDispatch (p : Props) (listSelectionIndex : Nat) (key : Key) : List Call :=
  if p.isFocused && mapHas p.shells p.activePid then
    handleKeypress p listSelectionIndex key
  else []

/-- The character list of the JS expression `command.split(' ')[0]`: the part
of the command before the first space. -/
def firstTokenChars : List Char → List Char
  | [] => []
  | c :: rest => if c = ' ' then [] else c :: firstTokenChars rest

/-- `command.split(' ')[0]` as a string function. -/
def firstTokenJS (s : String) : String :=
  String.mk (firstTokenChars s.data)

/-- The tab label built for the shell at 0-based position `i` (source line
179): a space, the 1-based position, a colon and space, the first
space-delimited token of the command, and a trailing space. -/
def labelOf (i : Nat) (sh : BackgroundShell) : String :=
  " " ++ toString (i + 1) ++ ": " ++ firstTokenJS sh.command ++ " "

/-- One entry of the rendered tab strip: either a session tab (its label plus
the two style-determining facts, active and exited) or the trailing overflow
affordance `" ... (Ctrl+O) "`. -/
inductive TabEntry
  | session (label : String) (isActive : Bool) (isExited : Bool)
  | overflowAffordance
deriving DecidableEq

/-- The tab-building loop of renderTabs (source lines 174-201): walk the
shell list accumulating label widths; when a label would push the
accumulated width past the available width, stop and report overflow. -/
def renderTabsLoop (activePid : Nat) (availableWidth : Int) :
    List BackgroundShell → Nat → Int → List TabEntry × Bool
  | [], _, _ => ([], false)
  | sh :: rest, i, currentWidth =>
      let label := labelOf i sh
      if currentWidth + (label.length : Int) > availableWidth then
        ([], true)
      else
        let r := renderTabsLoop activePid availableWidth rest (i + 1)
          (currentWidth + (label.length : Int))
        (TabEntry.session label (sh.pid == activePid) (sh.status == ShellStatus.exited) :: r.1,
          r.2)

/-- The label budget of renderTabs (source lines 168-172):
`width - TAB_DISPLAY_HORIZONTAL_PADDING - RIGHT_TEXT.length - pidTextEstimate`. -/
def availableWidthOf (width : Int) : Int :=
  width - TAB_DISPLAY_HORIZONTAL_PADDING - (RIGHT_TEXT.length : Int) - pidTextEstimate

/-- renderTabs (source lines 160-212): the loop output plus, on overflow, a
trailing affordance entry; the second component is the overflow flag. -/
def renderTabs (shells : ShellMap) (activePid : Nat) (width : Int) : List TabEntry × Bool :=
  let r := renderTabsLoop activePid (availableWidthOf width) (shells.map Prod.snd) 0 0
  (r.1 ++ (if r.2 then [TabEntry.overflowAffordance] else []), r.2)

/-- The session tabs the loop emits for a shell list starting at 0-based
position `i`, written directly for use in theorem statements. -/
def sessionTabs (activePid : Nat) : List BackgroundShell → Nat → List TabEntry
  | [], _ => []
  | sh :: rest, i =>
      TabEntry.session (labelOf i sh) (sh.pid == activePid) (sh.status == ShellStatus.exited) ::
        sessionTabs activePid rest (i + 1)

/-- The summed widths of the first `n` labels of a shell list whose head sits
at 0-based position `i`. -/
def labelsWidth : List BackgroundShell → Nat → Nat → Int
  | _, _, 0 => 0
  | [], _, _ + 1 => 0
  | sh :: rest, i, n + 1 => ((labelOf i sh).length : Int) + labelsWidth rest (i + 1) n

/-- Well-formedness of the registry: each entry's pid field equals its key
(the map is keyed by pid). -/
def WFShellMap (m : ShellMap) : Prop :=
  ∀ k sh, (k, sh) ∈ m → sh.pid = k

/-- Decidable check implying `WFShellMap`, for concrete registries. -/
def wfCheck (m : ShellMap) : Bool :=
  m.all (fun e => e.2.pid == e.1)

/-- A running demo shell with the given pid and command line. -/
def demoShell (pid : Nat) (cmd : String) : BackgroundShell :=
  ⟨pid, cmd, ShellStatus.running, none, ""⟩

/-- Demo props builder with an 80x24 viewport. -/
def demoProps (shells : ShellMap) (activePid : Nat) (focused listOpen : Bool) : Props :=
  ⟨shells, activePid, 80, 24, focused, listOpen⟩

/-- One-member registry holding the spec scenario's shell. -/
def demoRegistry1 : ShellMap := [(1, demoShell 1 "npm run build")]

/-- Two-member registry extending `demoRegistry1`. -/
def demoRegistry2 : ShellMap :=
  [(1, demoShell 1 "npm run build"), (2, demoShell 2 "sleep 100")]

/-- Registry holding one shell under pid 5, used with a stale active pid 7. -/
def demoStale : ShellMap := [(5, demoShell 5 "ls")]

/-- Two shells with short commands for the exact-fit layout scenario. -/
def demoShells2 : ShellMap := [(1, demoShell 1 "a b"), (2, demoShell 2 "c")]

/-- Five shells for the wraparound scenarios. -/
def demoShells5 : ShellMap :=
  [(1, demoShell 1 "a"), (2, demoShell 2 "b"), (3, demoShell 3 "c"),
    (4, demoShell 4 "d"), (5, demoShell 5 "e")]

/-- Focused props over `demoShells5` with the picker open and pid 3 active. -/
def demoOpen5 : Props := demoProps demoShells5 3 true true

theorem mapGet_mem : ∀ {m : ShellMap} {k : Nat} {sh : BackgroundShell},
    mapGet m k = some sh → (k, sh) ∈ m := by
  intro m
  induction m with
  | nil => intro k sh h; simp [mapGet] at h
  | cons e rest ih =>
    intro k sh h
    obtain ⟨k2, v⟩ := e
    simp only [mapGet] at h
    by_cases hk : k2 = k
    · rw [if_pos hk] at h
      obtain rfl := Option.some.inj h
      subst hk
      exact List.mem_cons_self _ _
    · rw [if_neg hk] at h
      exact List.mem_cons_of_mem _ (ih h)

theorem mapGet_mem_keys {m : ShellMap} {k : Nat} {sh : BackgroundShell}
    (h : mapGet m k = some sh) : k ∈ m.map Prod.fst :=
  List.mem_map.mpr ⟨(k, sh), mapGet_mem h, rfl⟩

theorem mapGet_length_pos {m : ShellMap} {k : Nat} {sh : BackgroundShell}
    (h : mapGet m k = some sh) : 0 < m.length :=
  List.length_pos.mpr (List.ne_nil_of_mem (mapGet_mem h))

theorem indexOfJS_of_mem : ∀ {l : List Nat} {k : Nat}, k ∈ l → ∃ i, indexOfJS k l = some i := by
  intro l
  induction l with
  | nil => intro k h; simp at h
  | cons x rest ih =>
    intro k h
    by_cases hx : x = k
    · exact ⟨0, by simp [indexOfJS, hx]⟩
    · have hk : k ∈ rest := by
        rcases List.mem_cons.mp h with h1 | h1
        · exact absurd h1.symm hx
        · exact h1
      obtain ⟨i, hi⟩ := ih hk
      exact ⟨i + 1, by simp [indexOfJS, hx, hi]⟩

theorem wfCheck_sound (m : ShellMap) (h : wfCheck m = true) : WFShellMap m := by
  intro k sh hmem
  have h2 := List.all_eq_true.mp h (k, sh) hmem
  simpa using h2

theorem labelsWidth_nonneg : ∀ (l : List BackgroundShell) (i n : Nat),
    0 ≤ labelsWidth l i n := by
  intro l
  induction l with
  | nil => intro i n; cases n <;> simp [labelsWidth]
  | cons sh rest ih =>
    intro i n
    cases n with
    | zero => simp [labelsWidth]
    | succ m =>
      have h1 := ih (i + 1) m
      have h2 : (0 : Int) ≤ ((labelOf i sh).length : Int) := Int.ofNat_nonneg _
      simp only [labelsWidth]
      omega

theorem keypressDispatch_gate (p : Props) (idx : Nat) (key : Key)
    (h : (p.isFocused && mapHas p.shells p.activePid) = false) :
    keypressDispatch p idx key = [] := by
  simp [keypressDispatch, h]

/-- C1: the claim demands a setPickerOpen(true) call exactly at each
1-to-many registry-size transition; in the code the reconciliation effect has
an empty dependency list and runs only on mount, so over a render sequence
whose registry grows from one member to two after the first render, no
setIsBackgroundShellListOpen(true) call is ever issued. -/
theorem C1_counterexample :
    (demoProps demoRegistry1 1 true false).shells.length = 1 ∧
    (demoProps demoRegistry2 1 true false).shells.length = 2 ∧
    Call.setIsBackgroundShellListOpen true ∉
      mountCalls [demoProps demoRegistry1 1 true false, demoProps demoRegistry2 1 true false] := by
  decide

/-- C1 (amended): the reconciliation runs exactly once, on mount: a
setIsBackgroundShellListOpen(true) call is issued over a render sequence iff
the registry has more than one member at the first render, and a
setIsBackgroundShellListOpen(false) call iff it has exactly one member at the
first render; later registry-size changes issue no reconciliation call. -/
theorem C1_amended (p : Props) (rest : List Props) :
    (Call.setIsBackgroundShellListOpen true ∈ mountCalls (p :: rest) ↔
      1 < p.shells.length) ∧
    (Call.setIsBackgroundShellListOpen false ∈ mountCalls (p :: rest) ↔
      p.shells.length = 1) := by
  simp only [mountCalls, mountEffect]
  rcases Nat.lt_trichotomy p.shells.length 1 with h | h | h
  · have h0 : p.shells.length = 0 := by omega
    simp [h0]
  · simp [h]
  · have hne : p.shells.length ≠ 1 := by omega
    simp [hne, h]

/-- C2: at a closed-to-open picker transition where the active identifier is
absent from the registry, the claim demands the selection index be reset to
0; the code's list-sync effect leaves it unchanged (here at 1). -/
theorem C2_counterexample :
    (demoProps demoStale 7 true false).isListOpenProp = false ∧
    (demoProps demoStale 7 true true).isListOpenProp = true ∧
    mapGet (demoProps demoStale 7 true true).shells
      (demoProps demoStale 7 true true).activePid = none ∧
    runListSync none [demoProps demoStale 7 true false, demoProps demoStale 7 true true] 1 = 1 := by
  decide

/-- C2 (amended): whenever the list-sync effect runs with the picker open (in
particular at every closed-to-open transition), if the active identifier
resolves to a session the index is set to the position of the active
identifier in registry order; if it does not resolve, the index is left
unchanged rather than reset to 0. -/
theorem C2_amended (p : Props) (idx : Nat) (hwf : WFShellMap p.shells)
    (hopen : p.isListOpenProp = true) :
    (∀ sh, mapGet p.shells p.activePid = some sh →
      indexOfJS p.activePid (p.shells.map Prod.fst) = some (listSyncEffect p idx)) ∧
    (mapGet p.shells p.activePid = none → listSyncEffect p idx = idx) := by
  constructor
  · intro sh hsh
    have hpid : sh.pid = p.activePid := hwf _ _ (mapGet_mem hsh)
    obtain ⟨i, hi⟩ := indexOfJS_of_mem (mapGet_mem_keys hsh)
    have hval : listSyncEffect p idx = i := by
      simp [listSyncEffect, hopen, hsh, hpid, hi]
    rw [hval]
    exact hi
  · intro hnone
    simp [listSyncEffect, hopen, hnone]

/-- C2 witness: over a concrete open registry of five shells with pid 3
active, the effect lands the index on position 2. -/
theorem C2_amended_witness :
    indexOfJS demoOpen5.activePid (demoOpen5.shells.map Prod.fst) =
      some (listSyncEffect demoOpen5 0) :=
  (C2_amended demoOpen5 0 (wfCheck_sound _ (by decide)) rfl).1 (demoShell 3 "c") (by decide)

/-- C3: the claim says the router runs exactly when the panel holds focus and
at least one session exists; here the panel is focused, the registry is
non-empty, yet because the active identifier (7) does not resolve to a
session, even a closed-state return key — which the router would otherwise
forward as a carriage return — is a complete no-op. -/
theorem C3_counterexample :
    (demoProps demoStale 7 true false).isFocused = true ∧
    (demoProps demoStale 7 true false).shells ≠ [] ∧
    keypressDispatch (demoProps demoStale 7 true false) 0 ⟨"return", false, "\r"⟩ = [] := by
  decide

/-- C3 (amended): every key event is a no-op exactly when the panel is
unfocused or the active identifier does not resolve to a registry member; the
router's gate is focus AND active-shell existence, not focus AND non-empty
registry. -/
theorem C3_amended (p : Props) (idx : Nat) :
    (∀ key : Key, keypressDispatch p idx key = []) ↔
      ¬(p.isFocused = true ∧ mapHas p.shells p.activePid = true) := by
  constructor
  · intro hall
    rintro ⟨hf, hh⟩
    obtain ⟨sh, hsh⟩ := Option.isSome_iff_exists.mp (by simpa [mapHas] using hh)
    have hcall := hall ⟨"return", false, "\r"⟩
    by_cases hopen : p.isListOpenProp
    · cases hget : (p.shells.map Prod.fst).get? idx with
      | none =>
        simp [keypressDispatch, hf, hh, handleKeypress, hsh, hopen, hget] at hcall
      | some selectedPid =>
        by_cases hz : selectedPid = 0
        · simp [keypressDispatch, hf, hh, handleKeypress, hsh, hopen, hget, hz] at hcall
        · simp [keypressDispatch, hf, hh, handleKeypress, hsh, hopen, hget, hz] at hcall
    · simp [keypressDispatch, hf, hh, handleKeypress, hsh, hopen,
        keyMatcherToggleBackgroundShell] at hcall
  · intro hn key
    apply keypressDispatch_gate
    cases hf : p.isFocused with
    | false => simp
    | true =>
      cases hh : mapHas p.shells p.activePid with
      | false => simp
      | true => exact absurd ⟨hf, hh⟩ hn

/-- C4: a key event named enter (the Node linefeed key, carrying a newline
sequence) in the closed state is not special-cased by the forwarding logic:
the code forwards its raw sequence, a newline, and never writes the carriage
return the claim demands. -/
theorem C4_counterexample :
    keypressDispatch (demoProps demoStale 5 true false) 0 ⟨"enter", false, "\n"⟩ =
      [Call.writeToPty 5 "\n"] ∧
    Call.writeToPty 5 "\r" ∉
      keypressDispatch (demoProps demoStale 5 true false) 0 ⟨"enter", false, "\n"⟩ := by
  decide

/-- C4 (amended): in the closed state with an active session present, a key
event named return causes exactly one write of the carriage-return byte to
the active session's pty and no other call, so no local state is mutated; a
key event named enter is not special-cased: it forwards its raw sequence
verbatim when it has one and is ignored otherwise. -/
theorem C4_amended (p : Props) (idx : Nat) (sh : BackgroundShell)
    (hwf : WFShellMap p.shells) (hclosed : p.isListOpenProp = false)
    (hfoc : p.isFocused = true) (hact : mapGet p.shells p.activePid = some sh) :
    (∀ key : Key, key.name = "return" → key.ctrl = false →
        keypressDispatch p idx key = [Call.writeToPty p.activePid "\r"]) ∧
    (∀ key : Key, key.name = "enter" → key.ctrl = false →
        keypressDispatch p idx key =
          if key.sequence ≠ "" then [Call.writeToPty p.activePid key.sequence] else []) := by
  have hpid : sh.pid = p.activePid := hwf _ _ (mapGet_mem hact)
  have hh : mapHas p.shells p.activePid = true := by simp [mapHas, hact]
  constructor
  · intro key hname hctrl
    simp [keypressDispatch, hfoc, hh, handleKeypress, hact, hclosed,
      keyMatcherToggleBackgroundShell, hname, hctrl, hpid]
  · intro key hname hctrl
    simp [keypressDispatch, hfoc, hh, handleKeypress, hact, hclosed,
      keyMatcherToggleBackgroundShell, hname, hctrl, hpid]

/-- C4 witness: the concrete return key over a registry whose active pid 5
resolves produces exactly the single carriage-return write. -/
theorem C4_amended_witness :
    keypressDispatch (demoProps demoStale 5 true false) 0 ⟨"return", false, "\r"⟩ =
      [Call.writeToPty (demoProps demoStale 5 true false).activePid "\r"] :=
  (C4_amended (demoProps demoStale 5 true false) 0 (demoShell 5 "ls")
    (wfCheck_sound _ (by decide)) rfl rfl (by decide)).1 ⟨"return", false, "\r"⟩ rfl rfl

/-- C7: with the picker open over a registry whose active identifier
resolves and the index in range, up and down navigation is true modulo
arithmetic: the issued index is (idx+1) mod n for down and (idx+n-1) mod n
for up, always lands in [0, n), wraps from the last index to 0 on down and
from 0 to the last index on up; and with an empty registry every key event
(navigation and commit included) is a no-op. -/
theorem C7_thm (p : Props) (idx : Nat) (sh : BackgroundShell)
    (hopen : p.isListOpenProp = true) (hfoc : p.isFocused = true)
    (hact : mapGet p.shells p.activePid = some sh)
    (hidx : idx < p.shells.length) :
    (∀ key : Key, key.name = "down" →
        keypressDispatch p idx key =
          [Call.setListSelectionIndex ((idx + 1) % p.shells.length)]) ∧
    (∀ key : Key, key.name = "up" →
        keypressDispatch p idx key =
          [Call.setListSelectionIndex ((idx + p.shells.length - 1) % p.shells.length)]) ∧
    (idx + 1) % p.shells.length < p.shells.length ∧
    (idx + p.shells.length - 1) % p.shells.length < p.shells.length ∧
    (idx = p.shells.length - 1 → (idx + 1) % p.shells.length = 0) ∧
    (idx = 0 → (idx + p.shells.length - 1) % p.shells.length = p.shells.length - 1) ∧
    (∀ (q : Props) (j : Nat) (key : Key), q.shells = [] → keypressDispatch q j key = []) := by
  have hn : 0 < p.shells.length := mapGet_length_pos hact
  have hh : mapHas p.shells p.activePid = true := by simp [mapHas, hact]
  refine ⟨?_, ?_, ?_, ?_, ?_, ?_, ?_⟩
  · intro key hname
    simp [keypressDispatch, hfoc, hh, handleKeypress, hact, hopen, hname]
  · intro key hname
    simp [keypressDispatch, hfoc, hh, handleKeypress, hact, hopen, hname]
  · exact Nat.mod_lt _ hn
  · exact Nat.mod_lt _ hn
  · intro h
    subst h
    rw [Nat.sub_add_cancel hn]
    exact Nat.mod_self _
  · intro h
    subst h
    have hlt : p.shells.length - 1 < p.shells.length := by omega
    simp [Nat.mod_eq_of_lt hlt]
  · intro q j key hq
    apply keypressDispatch_gate
    simp [hq, mapHas, mapGet]

/-- C7 witness: five sessions, index 4, down wraps to (4+1) mod 5 = 0. -/
theorem C7_witness :
    keypressDispatch demoOpen5 4 ⟨"down", false, ""⟩ =
      [Call.setListSelectionIndex ((4 + 1) % demoOpen5.shells.length)] :=
  (C7_thm demoOpen5 4 (demoShell 3 "c") rfl rfl (by decide) (by decide)).1
    ⟨"down", false, ""⟩ rfl

/-- C8: while the picker is open, any key event whose name is none of up,
down, return, enter, escape and which is not the Ctrl+O confirm shortcut is
swallowed: no pty write, no state mutation, no call of any kind. -/
theorem C8_thm (p : Props) (idx : Nat) (key : Key) (hopen : p.isListOpenProp = true)
    (h1 : key.name ≠ "up") (h2 : key.name ≠ "down") (h3 : key.name ≠ "return")
    (h4 : key.name ≠ "enter") (h5 : key.name ≠ "escape")
    (h6 : ¬(key.ctrl = true ∧ key.name = "o")) :
    keypressDispatch p idx key = [] := by
  cases hgate : (p.isFocused && mapHas p.shells p.activePid) with
  | false => exact keypressDispatch_gate p idx key hgate
  | true =>
    obtain ⟨sh, hsh⟩ := Option.isSome_iff_exists.mp (by
      have hb := (Bool.and_eq_true _ _).mp hgate
      simpa [mapHas] using hb.2)
    have hco : (key.ctrl && (key.name == "o")) = false := by
      cases hc : key.ctrl
      · simp
      · have hno : key.name ≠ "o" := fun he => h6 ⟨hc, he⟩
        simpa using hno
    simp [keypressDispatch, hgate, handleKeypress, hsh, hopen, h1, h2, h3, h4, h5, hco]

/-- C8 witness: a plain character key is swallowed by the open picker. -/
theorem C8_witness : keypressDispatch demoOpen5 0 ⟨"x", false, "x"⟩ = [] :=
  C8_thm demoOpen5 0 ⟨"x", false, "x"⟩ rfl (by decide) (by decide) (by decide) (by decide)
    (by decide) (by decide)

/-- C10: committing from the open picker (return, enter, or the Ctrl+O
confirm shortcut) with a selection index at or beyond the registry size
closes the picker and issues no setActiveBackgroundShellPid call: the stale
index selects no pid, so the active identifier is left unchanged. -/
theorem C10_thm (p : Props) (idx : Nat) (sh : BackgroundShell)
    (hopen : p.isListOpenProp = true) (hfoc : p.isFocused = true)
    (hact : mapGet p.shells p.activePid = some sh)
    (hidx : p.shells.length ≤ idx) :
    (∀ key : Key, key.name = "return" ∨ key.name = "enter" →
        keypressDispatch p idx key = [Call.setIsBackgroundShellListOpen false]) ∧
    (∀ key : Key, key.ctrl = true → key.name = "o" →
        keypressDispatch p idx key = [Call.setIsBackgroundShellListOpen false]) := by
  have hh : mapHas p.shells p.activePid = true := by simp [mapHas, hact]
  have hget : p.shells[idx]? = none := by
    rw [List.getElem?_eq_none_iff]
    exact hidx
  constructor
  · intro key hname
    rcases hname with hname | hname <;>
      simp [keypressDispatch, hfoc, hh, handleKeypress, hact, hopen, hname, hget]
  · intro key hctrl hname
    simp [keypressDispatch, hfoc, hh, handleKeypress, hact, hopen, hname, hctrl, hget]

/-- C10 witness: five sessions, stale index 10, return commits to a close
without any set-active call. -/
theorem C10_witness :
    keypressDispatch demoOpen5 10 ⟨"return", false, "\r"⟩ =
      [Call.setIsBackgroundShellListOpen false] :=
  (C10_thm demoOpen5 10 (demoShell 3 "c") rfl rfl (by decide) (by decide)).1
    ⟨"return", false, "\r"⟩ (Or.inl rfl)

theorem renderTabsLoop_label (activePid : Nat) (avail : Int) :
    ∀ (list : List BackgroundShell) (i : Nat) (cw : Int) (j : Nat) (lbl : String) (a e : Bool),
      (renderTabsLoop activePid avail list i cw).1.get? j = some (TabEntry.session lbl a e) →
      ∃ sh, list.get? j = some sh ∧ lbl = labelOf (i + j) sh := by
  intro list
  induction list with
  | nil =>
    intro i cw j lbl a e h
    simp [renderTabsLoop] at h
  | cons sh rest ih =>
    intro i cw j lbl a e h
    simp only [renderTabsLoop] at h
    split at h
    · simp at h
    · cases j with
      | zero =>
        simp at h
        obtain ⟨hl, ha, he⟩ := h
        exact ⟨sh, by simp, by simp [hl]⟩
      | succ m =>
        simp only [List.get?] at h
        obtain ⟨sh2, hsh2, hlbl⟩ := ih (i + 1) _ m lbl a e h
        refine ⟨sh2, by simpa using hsh2, ?_⟩
        rw [hlbl]
        congr 1
        omega

theorem sessionTabs_length (activePid : Nat) :
    ∀ (l : List BackgroundShell) (i : Nat), (sessionTabs activePid l i).length = l.length := by
  intro l
  induction l with
  | nil => intro i; rfl
  | cons sh rest ih => intro i; simp [sessionTabs, ih]

theorem labelsWidth_zero : ∀ (l : List BackgroundShell) (i : Nat), labelsWidth l i 0 = 0 := by
  intro l i
  cases l <;> rfl

theorem renderTabsLoop_greedy (activePid : Nat) (avail : Int) :
    ∀ (list : List BackgroundShell) (i : Nat) (cw : Int) (N : Nat),
      N ≤ list.length →
      cw + labelsWidth list i N ≤ avail →
      (N = list.length ∨ avail < cw + labelsWidth list i (N + 1)) →
      renderTabsLoop activePid avail list i cw =
        (sessionTabs activePid (list.take N) i, decide (N < list.length)) := by
  intro list
  induction list with
  | nil =>
    intro i cw N hN hfit hstop
    have h0 : N = 0 := Nat.le_zero.mp hN
    subst h0
    simp [renderTabsLoop, sessionTabs]
  | cons sh rest ih =>
    intro i cw N hN hfit hstop
    cases N with
    | zero =>
      have hbr : avail < cw + labelsWidth (sh :: rest) i 1 := by
        rcases hstop with h | h
        · simp at h
        · exact h
      have hw1 : labelsWidth (sh :: rest) i 1 =
          ((labelOf i sh).length : Int) + labelsWidth rest (i + 1) 0 := rfl
      have hz := labelsWidth_zero rest (i + 1)
      have hbr2 : cw + ((labelOf i sh).length : Int) > avail := by omega
      rw [renderTabsLoop, if_pos hbr2]
      simp [sessionTabs]
    | succ M =>
      have hw : labelsWidth (sh :: rest) i (M + 1) =
          ((labelOf i sh).length : Int) + labelsWidth rest (i + 1) M := rfl
      have hnn := labelsWidth_nonneg rest (i + 1) M
      have hfit0 : ¬(cw + ((labelOf i sh).length : Int) > avail) := by
        rw [hw] at hfit
        omega
      have hN2 : M ≤ rest.length := by simpa using hN
      have hfit2 : (cw + ((labelOf i sh).length : Int)) + labelsWidth rest (i + 1) M ≤ avail := by
        rw [hw] at hfit
        omega
      have hstop2 : M = rest.length ∨
          avail < (cw + ((labelOf i sh).length : Int)) + labelsWidth rest (i + 1) (M + 1) := by
        rcases hstop with h | h
        · left; simpa using h
        · right
          have hw2 : labelsWidth (sh :: rest) i (M + 2) =
              ((labelOf i sh).length : Int) + labelsWidth rest (i + 1) (M + 1) := rfl
          rw [hw2] at h
          omega
      rw [renderTabsLoop, if_neg hfit0, ih (i + 1) (cw + ((labelOf i sh).length : Int)) M hN2
        hfit2 hstop2]
      simp [sessionTabs]

/-- C5: every session tab emitted by the layout carries the label
" pos: firstToken " built from its 1-based registry position and the part of
its command before the first space; in particular the scenario registry with
the single running shell "npm run build", active pid 1 and width 80 yields
exactly the single active tab " 1: npm " with no overflow. -/
theorem C5_thm :
    (∀ (shells : ShellMap) (activePid : Nat) (width : Int) (j : Nat)
        (lbl : String) (a e : Bool),
        (renderTabs shells activePid width).1.get? j = some (TabEntry.session lbl a e) →
        ∃ sh, (shells.map Prod.snd).get? j = some sh ∧
          lbl = " " ++ toString (j + 1) ++ ": " ++ firstTokenJS sh.command ++ " ") ∧
    renderTabs demoRegistry1 1 80 = ([TabEntry.session " 1: npm " true false], false) := by
  constructor
  · intro shells activePid width j lbl a e h
    simp only [renderTabs] at h
    rcases Nat.lt_or_ge j
      (renderTabsLoop activePid (availableWidthOf width) (shells.map Prod.snd) 0 0).1.length
      with hj | hj
    · rw [List.get?_append hj] at h
      obtain ⟨sh, hsh, hlbl⟩ := renderTabsLoop_label activePid (availableWidthOf width)
        (shells.map Prod.snd) 0 0 j lbl a e h
      exact ⟨sh, hsh, by simpa [labelOf] using hlbl⟩
    · rw [List.get?_append_right hj] at h
      by_cases h2 : (renderTabsLoop activePid (availableWidthOf width)
          (shells.map Prod.snd) 0 0).2 = true
      · rw [if_pos h2] at h
        cases hmk : j -
            (renderTabsLoop activePid (availableWidthOf width)
              (shells.map Prod.snd) 0 0).1.length with
        | zero => rw [hmk] at h; simp at h
        | succ m => rw [hmk] at h; simp at h
      · rw [if_neg h2] at h
        simp at h
  · decide

/-- C5 witness: the scenario tab's label has the required form at position 0. -/
theorem C5_witness :
    ∃ sh, (demoRegistry1.map Prod.snd).get? 0 = some sh ∧
      " 1: npm " = " " ++ toString (0 + 1) ++ ": " ++ firstTokenJS sh.command ++ " " :=
  C5_thm.1 demoRegistry1 1 80 0 " 1: npm " true false (by decide)

/-- C6: when the label budget fits exactly the first N labels (their summed
widths fit, and either all sessions are placed or the next label would burst
the budget), the layout emits exactly the N session tabs of the first N
sessions in registry order, reports overflow iff sessions remain, and
appends the " ... (Ctrl+O) " affordance entry iff it overflowed; the
all-sessions case (N = length) gives overflowed = false with every label
present in order. -/
theorem C6_thm (shells : ShellMap) (activePid : Nat) (width : Int) (N : Nat)
    (hN : N ≤ shells.length)
    (hfit : labelsWidth (shells.map Prod.snd) 0 N ≤ availableWidthOf width)
    (hstop : N = shells.length ∨
      availableWidthOf width < labelsWidth (shells.map Prod.snd) 0 (N + 1)) :
    (renderTabs shells activePid width).1 =
      sessionTabs activePid ((shells.map Prod.snd).take N) 0 ++
        (if N < shells.length then [TabEntry.overflowAffordance] else []) ∧
    (sessionTabs activePid ((shells.map Prod.snd).take N) 0).length = N ∧
    ((renderTabs shells activePid width).2 = true ↔ N < shells.length) := by
  have hlen : (shells.map Prod.snd).length = shells.length := List.length_map _ _
  have hN2 : N ≤ (shells.map Prod.snd).length := by rw [hlen]; exact hN
  have hfit2 : (0 : Int) + labelsWidth (shells.map Prod.snd) 0 N ≤ availableWidthOf width := by
    simpa using hfit
  have hstop2 : N = (shells.map Prod.snd).length ∨
      availableWidthOf width < (0 : Int) + labelsWidth (shells.map Prod.snd) 0 (N + 1) := by
    rcases hstop with h | h
    · left; rw [hlen]; exact h
    · right; simpa using h
  have hmain := renderTabsLoop_greedy activePid (availableWidthOf width)
    (shells.map Prod.snd) 0 0 N hN2 hfit2 hstop2
  refine ⟨?_, ?_, ?_⟩
  · by_cases hc : N < shells.length
    · simp [renderTabs, hmain, hlen, hc]
    · simp [renderTabs, hmain, hlen, hc]
  · rw [sessionTabs_length, List.length_take, hlen]
    exact Nat.min_eq_left hN
  · by_cases hc : N < shells.length
    · simp [renderTabs, hmain, hlen, hc]
    · simp [renderTabs, hmain, hlen, hc]

/-- C6 witness: two shells whose first label exactly exhausts the width-60
budget of 6 columns: the layout overflows after one tab. -/
theorem C6_witness :
    ((renderTabs demoShells2 1 60).2 = true ↔ 1 < demoShells2.length) :=
  (C6_thm demoShells2 1 60 1 (by decide) (by decide) (Or.inr (by decide))).2.2

theorem resizeEffect_shape {p : Props} {c : Call} (h : c ∈ resizeEffect p) :
    mapHas p.shells p.activePid = true ∧
      c = Call.resizePty p.activePid (max 1 (p.width - 4)) (max 1 (p.height - 3)) := by
  have harith : p.width - TAB_DISPLAY_HORIZONTAL_PADDING / 2 - CONTENT_PADDING_X * 2 =
      p.width - 4 := by
    simp only [TAB_DISPLAY_HORIZONTAL_PADDING, CONTENT_PADDING_X]
    omega
  unfold resizeEffect at h
  by_cases hh : mapHas p.shells p.activePid = true
  · rw [if_pos hh] at h
    simp at h
    rw [harith] at h
    exact ⟨hh, h⟩
  · rw [if_neg hh] at h
    simp at h

theorem resizeCallsFrom_mem : ∀ (ps : List Props) (prev : Props) (c : Call),
    c ∈ resizeCallsFrom prev ps → ∃ p, p ∈ ps ∧ c ∈ resizeEffect p := by
  intro ps
  induction ps with
  | nil => intro prev c h; simp [resizeCallsFrom] at h
  | cons p rest ih =>
    intro prev c h
    simp only [resizeCallsFrom, List.mem_append] at h
    rcases h with h | h
    · by_cases hd : resizeDeps p = resizeDeps prev
      · rw [if_pos hd] at h
        simp at h
      · rw [if_neg hd] at h
        exact ⟨p, List.mem_cons_self _ _, h⟩
    · obtain ⟨q, hq, hc⟩ := ih p c h
      exact ⟨q, List.mem_cons_of_mem _ hq, hc⟩

/-- C9: the geometry-sync effect depends exactly on (activePid, width,
height, shells) and fires whenever that tuple changes; each firing with the
active identifier present issues exactly one resize of the active pty to
max(1, width - 4) columns and max(1, height - 3) rows (4 and 3 being the
fixed horizontal and vertical chrome), a firing with the active identifier
absent issues nothing, and every resize call emitted over any render
sequence targets the pid that was active at its render, with exactly those
dimensions. -/
theorem C9_thm :
    (∀ p : Props, mapHas p.shells p.activePid = true →
        resizeEffect p =
          [Call.resizePty p.activePid (max 1 (p.width - 4)) (max 1 (p.height - 3))]) ∧
    (∀ p : Props, mapHas p.shells p.activePid = false → resizeEffect p = []) ∧
    (∀ (prev p : Props) (rest : List Props), resizeDeps p ≠ resizeDeps prev →
        resizeCallsFrom prev (p :: rest) = resizeEffect p ++ resizeCallsFrom p rest) ∧
    (∀ (ps : List Props) (pid : Nat) (cols rows : Int),
        Call.resizePty pid cols rows ∈ resizeCalls ps →
        ∃ p, p ∈ ps ∧ pid = p.activePid ∧ mapHas p.shells p.activePid = true ∧
          cols = max 1 (p.width - 4) ∧ rows = max 1 (p.height - 3)) := by
  refine ⟨?_, ?_, ?_, ?_⟩
  · intro p hp
    have harith : p.width - TAB_DISPLAY_HORIZONTAL_PADDING / 2 - CONTENT_PADDING_X * 2 =
        p.width - 4 := by
      simp only [TAB_DISPLAY_HORIZONTAL_PADDING, CONTENT_PADDING_X]
      omega
    unfold resizeEffect
    rw [if_pos hp, harith]
  · intro p hp
    unfold resizeEffect
    rw [if_neg (by simp [hp])]
  · intro prev p rest hd
    simp only [resizeCallsFrom, if_neg hd]
  · intro ps pid cols rows h
    cases ps with
    | nil => simp [resizeCalls] at h
    | cons p rest =>
      simp only [resizeCalls, List.mem_append] at h
      rcases h with h | h
      · obtain ⟨hh, hc⟩ := resizeEffect_shape h
        obtain ⟨h1, h2, h3⟩ := Call.resizePty.inj hc
        exact ⟨p, List.mem_cons_self _ _, h1, hh, h2, h3⟩
      · obtain ⟨q, hq, hcq⟩ := resizeCallsFrom_mem rest p _ h
        obtain ⟨hh, hc⟩ := resizeEffect_shape hcq
        obtain ⟨h1, h2, h3⟩ := Call.resizePty.inj hc
        exact ⟨q, List.mem_cons_of_mem _ hq, h1, hh, h2, h3⟩

/-- C9 witness: a present active pid 5 over an 80x24 viewport produces the
single resize call with columns max(1, 80-4) and rows max(1, 24-3). -/
theorem C9_witness :
    resizeEffect (demoProps demoStale 5 true false) =
      [Call.resizePty (demoProps demoStale 5 true false).activePid
        (max 1 ((demoProps demoStale 5 true false).width - 4))
        (max 1 ((demoProps demoStale 5 true false).height - 3))] :=
  C9_thm.1 (demoProps demoStale 5 true false) (by decide)
